import Mathlib

/-!
Verification of the tenant-scoped resource forwarding registry
(`pkg/virtual/framework/forwardingregistry/store.go`).

The Go source is shallowly embedded below: each Lean definition mirrors one
function of `store.go` (line references in the doc comments).  Parts of the
system that `store.go` calls but that are not in the inspected slice (the
backing dynamic client, `genericapirequest.ValidClusterFrom`, and the
client-go conflict-retry helper) are modelled from the specification and say
so in their doc comments.

Go idioms are translated as follows: `map[string]string` becomes an
association list `List (String × String)` whose lookup defaults to `""`
exactly as a Go map read does; fallible functions returning `(T, error)`
become `Except Err T`; `panic` becomes a dedicated `CallOutcome.fatal`
constructor distinct from recoverable errors.
-/

namespace ForwardingRegistry

/-- `schema.GroupResource`: the configured group/resource identity used in
not-found errors (`Store.DefaultQualifiedResource`). -/
structure GroupResource where
  group : String
  resource : String
  deriving DecidableEq, Repr

/-- `schema.GroupVersionResource`: the resource coordinate fixed at adapter
construction (`Store.resource`). -/
structure GroupVersionResource where
  group : String
  version : String
  resource : String
  deriving DecidableEq, Repr

/-- The well-known envelope fields of an `unstructured.Unstructured` object
that `store.go` touches: name, namespace, labels, resource version, and the
group/kind used by `NewInvalid`. -/
structure UnstructuredObj where
  name : String
  ns : String
  labels : List (String × String)
  resourceVersion : Nat
  groupKind : String
  deriving DecidableEq, Repr

/-- A `runtime.Object` as produced by the caller-supplied transform: either an
`unstructured.Unstructured` or some other concrete type, on which the type
assertion `obj.(*unstructured.Unstructured)` in `doUpdate` fails. -/
inductive RuntimeObject where
  | unstructured (o : UnstructuredObj)
  | other (desc : String)
  deriving DecidableEq, Repr

/-- Go map read `labels[k]`: the zero value `""` when the key is absent. -/
def lookupLabel (labels : List (String × String)) (k : String) : String :=
  match labels.find? (fun kv => kv.1 == k) with
  | some kv => kv.2
  | none => ""

/-- Whether the label map carries an entry for key `k` at all (as opposed to
carrying it with the empty value, which a Go map read cannot distinguish). -/
def hasLabelKey (labels : List (String × String)) (k : String) : Bool :=
  (labels.find? (fun kv => kv.1 == k)).isSome

/-- `matches` (store.go 279-289; `matches` is reserved in Lean, hence
`matchesObj`): an object matches when every key of the fixed label selector
maps to the required value under Go map lookup; the Go `nil` selector returns
`true`, which coincides with the empty list here. -/
def matchesObj (labelSelector : List (String × String)) (obj : UnstructuredObj) : Bool :=
  labelSelector.all (fun kv => lookupLabel obj.labels kv.1 == kv.2)

/-- `toExpression` (store.go 265-277): folds the label-scope map into a
comma-joined `key=value` selector string; empty map yields `""`. -/
def toExpression (labelSelect : List (String × String)) : String :=
  labelSelect.foldl
    (fun expr kv => (if expr = "" then expr else expr ++ ",") ++ kv.1 ++ "=" ++ kv.2) ""

/-- The selector combination shared by `List` (store.go 117-121) and `Watch`
(store.go 156-160): an empty caller selector is replaced by the scope
expression, a non-empty one gets `"," ++ scope expression` appended. -/
def combinedSelector (callerSelector : String) (labelSelector : List (String × String)) :
    String :=
  if callerSelector = "" then toExpression labelSelector
  else callerSelector ++ "," ++ toExpression labelSelector

/-- Comma-joins a list of selector clauses (specification-side description of
the string `toExpression` builds). -/
def clausesJoin : List String → String
  | [] => ""
  | [c] => c
  | c :: c2 :: cs => c ++ "," ++ clausesJoin (c2 :: cs)

/-- The tail of a comma-joined clause string: `",c1,c2,...,cn"`. -/
def clausesTail : List String → String
  | [] => ""
  | c :: cs => "," ++ c ++ clausesTail cs

/-- The tenant identity carried in request context (`genericapirequest.Cluster`):
an opaque name plus a wildcard marker. -/
structure Cluster where
  name : String
  wildcard : Bool
  deriving DecidableEq, Repr

/-- The ambient request context as far as `store.go` reads it: the tenant
identity (`ValidClusterFrom`), the namespace (`NamespaceFrom`), and the
request verb (`RequestInfoFrom`; `none` when no request info is attached). -/
structure RequestContext where
  cluster : Option Cluster
  ns : Option String
  verb : Option String
  deriving DecidableEq, Repr

/-- The error kinds `store.go` produces or passes through (§7 taxonomy). -/
inductive Err where
  | notFound (gr : GroupResource) (name : String)
  | conflict (gr : GroupResource) (name : String)
  | invalid (groupKind : String) (name : String) (errs : List String)
  | notUnstructured (desc : String)
  | noValidCluster
  | missingNamespace (resource : String)
  | other (msg : String)
  deriving DecidableEq, Repr

/-- `kerrors.IsConflict`: recognises the version-conflict kind. -/
def Err.isConflict : Err → Bool
  | Err.conflict _ _ => true
  | _ => false

/-- `logicalcluster.Wildcard`: the distinguished "all tenants" cluster name
understood by the backing client. -/
def logicalclusterWildcard : String := "*"

/-- Modelled from the spec: `genericapirequest.ValidClusterFrom` (kcp's
apiserver fork, not in this slice) returns the tenant identity carried in
the request context and fails with a configuration-error kind when the
context carries no tenant identity (§4.1). -/
def validClusterFrom (ctx : RequestContext) : Except Err Cluster :=
  match ctx.cluster with
  | some c => Except.ok c
  | none => Except.error Err.noValidCluster

/-- The backing endpoint handle produced by
`dynamicClusterClient.Cluster(clusterName).Resource(resource)[.Namespace(ns)]`. -/
structure ResourceHandle where
  clusterName : String
  resource : GroupVersionResource
  ns : Option String
  deriving DecidableEq, Repr

/-- The per-instance configuration of `Store` (store.go 40-83):
`DefaultQualifiedResource`, the resource coordinate, whether the
`CreateStrategy` is namespace-scoped, the fixed label selector, and the
`Steps` bound of `patchConflictRetryBackoff`. -/
structure StoreConfig where
  defaultQualifiedResource : GroupResource
  resource : GroupVersionResource
  namespaceScoped : Bool
  labelSelector : List (String × String)
  patchRetrySteps : Nat
  deriving DecidableEq, Repr

/-- `getClientResource` (store.go 243-263): resolves the tenant from context,
maps the wildcard marker to `logicalcluster.Wildcard`, and narrows to the
namespace when the strategy is namespace-scoped, failing when the namespace
is absent from context. -/
def getClientResource (s : StoreConfig) (ctx : RequestContext) : Except Err ResourceHandle :=
  match validClusterFrom ctx with
  | Except.error e => Except.error e
  | Except.ok cluster =>
    let clusterName := if cluster.wildcard then logicalclusterWildcard else cluster.name
    if s.namespaceScoped then
      match ctx.ns with
      | some n => Except.ok ⟨clusterName, s.resource, some n⟩
      | none => Except.error (Err.missingNamespace s.resource.resource)
    else
      Except.ok ⟨clusterName, s.resource, none⟩

/-- Modelled from the spec: the state of the backing store at the resolved
endpoint — objects addressable by name.  The backing dynamic client is an
external collaborator (§6); per §7 its Get on an absent name fails with the
uniform not-found kind naming the configured resource. -/
structure BackingState where
  objects : List (String × UnstructuredObj)
  deriving DecidableEq, Repr

/-- Name lookup in the backing state. -/
def lookupObj (b : BackingState) (name : String) : Option UnstructuredObj :=
  match b.objects.find? (fun p => p.1 == name) with
  | some p => some p.2
  | none => none

/-- Modelled from the spec: `delegate.Get` — returns the stored object, or the
uniform not-found error naming the configured resource when the name is
absent (§7 "Not-found"). -/
def delegateGet (s : StoreConfig) (b : BackingState) (name : String) :
    Except Err UnstructuredObj :=
  match lookupObj b name with
  | some obj => Except.ok obj
  | none => Except.error (Err.notFound s.defaultQualifiedResource name)

/-- `Store.Get` (store.go 127-143): resolve the endpoint, forward the Get,
then post-filter through `matches`; a label-scope mismatch is reported as
`NewNotFound(s.DefaultQualifiedResource, name)`. -/
def storeGet (s : StoreConfig) (b : BackingState) (ctx : RequestContext) (name : String) :
    Except Err UnstructuredObj :=
  match getClientResource s ctx with
  | Except.error e => Except.error e
  | Except.ok _ =>
    match delegateGet s b name with
    | Except.error e => Except.error e
    | Except.ok obj =>
      if matchesObj s.labelSelector obj then Except.ok obj
      else Except.error (Err.notFound s.defaultQualifiedResource name)

/-- `Store.List` (store.go 106-124), embedded up to the forwarded call: the
observable of the claims is the pair (endpoint handle, label selector string)
handed to `delegate.List`; the backing call itself is external and returns
its result verbatim. -/
def storeList (s : StoreConfig) (ctx : RequestContext) (callerSelector : String) :
    Except Err (ResourceHandle × String) :=
  match getClientResource s ctx with
  | Except.error e => Except.error e
  | Except.ok delegate =>
    Except.ok (delegate, combinedSelector callerSelector s.labelSelector)

/-- `Store.Watch` (store.go 146-173), embedded up to the forwarded call: the
endpoint handle and label selector string handed to `delegate.Watch`.  The
derived-context lifecycle of the same function is modelled separately below. -/
def storeWatchCall (s : StoreConfig) (ctx : RequestContext) (callerSelector : String) :
    Except Err (ResourceHandle × String) :=
  match getClientResource s ctx with
  | Except.error e => Except.error e
  | Except.ok delegate =>
    Except.ok (delegate, combinedSelector callerSelector s.labelSelector)

/-- The pluggable collaborators of the update path (§6): the caller-supplied
transform (`objInfo.UpdatedObject`), the update strategy's mutation and
validation hooks, and the caller's post-validation hook
(`updateValidation`). -/
structure UpdateHooks where
  updatedObject : RequestContext → UnstructuredObj → Except Err RuntimeObject
  prepareForUpdate : RequestContext → UnstructuredObj → UnstructuredObj → UnstructuredObj
  validateUpdate : RequestContext → UnstructuredObj → UnstructuredObj → List String
  updateValidation : RequestContext → UnstructuredObj → UnstructuredObj → Except Err Unit

/-- The world one attempt of the read-modify-write unit runs against: the
backing state its re-Get reads, and the outcome of `delegate.Update` on the
candidate object (conflict, other failure, or the written object). -/
structure AttemptEnv where
  backing : BackingState
  writeResult : UnstructuredObj → Except Err UnstructuredObj

/-- `doUpdate` (store.go 182-207): re-Get the current object through
`Store.Get` (so the label scope applies), apply the caller transform, fail
with the Go type-assertion error when its result is not an Unstructured, run
`PrepareForUpdate` then `ValidateUpdate` (aggregated into `NewInvalid` on the
object's group/kind and name), run the caller's `updateValidation`, and
forward the write. -/
def doUpdate (s : StoreConfig) (h : UpdateHooks) (ctx : RequestContext) (name : String)
    (env : AttemptEnv) : Except Err UnstructuredObj :=
  match storeGet s env.backing ctx name with
  | Except.error e => Except.error e
  | Except.ok oldObj =>
    match h.updatedObject ctx oldObj with
    | Except.error e => Except.error e
    | Except.ok (RuntimeObject.other desc) =>
      Except.error (Err.notUnstructured desc)
    | Except.ok (RuntimeObject.unstructured u) =>
      let u2 := h.prepareForUpdate ctx u oldObj
      match h.validateUpdate ctx u2 oldObj with
      | errs@(_ :: _) => Except.error (Err.invalid u2.groupKind u2.name errs)
      | [] =>
        match h.updateValidation ctx u2 oldObj with
        | Except.error e => Except.error e
        | Except.ok _ => env.writeResult u2

/-- Modelled from the spec: the Conflict Retry Driver (§4.5), the semantics of
`retry.RetryOnConflict(s.patchConflictRetryBackoff, ...)` from client-go
(external, not in this slice).  `remaining` counts the retries still allowed
after the current attempt; the attempt index `i` selects the world the
attempt runs against, so each re-entry of *attempting* reads the then-latest
state.  A conflict with retries remaining re-enters *attempting*; a conflict
with none left reports that (the last) conflict error; a non-conflict failure
or a success reports immediately. -/
def retryOnConflictGo (f : Nat → Except Err UnstructuredObj) :
    Nat → Nat → Except Err UnstructuredObj
  | 0, i => f i
  | Nat.succ n, i =>
    match f i with
    | Except.ok a => Except.ok a
    | Except.error e =>
      if e.isConflict then retryOnConflictGo f n (i + 1)
      else Except.error e

/-- Modelled from the spec: entry point of the Conflict Retry Driver with a
budget of `maxAttempts` executions of the unit (the backoff `Steps`); per
§4.5 the unit executes at least once on entry. -/
def retryOnConflict (maxAttempts : Nat) (f : Nat → Except Err UnstructuredObj) :
    Except Err UnstructuredObj :=
  retryOnConflictGo f (maxAttempts - 1) 0

/-- The `(runtime.Object, bool, error)` triple returned by `Store.Update`. -/
structure UpdateResult where
  obj : Option UnstructuredObj
  created : Bool
  err : Option Err
  deriving Repr

/-- `Store.Update` (store.go 176-222): resolve the endpoint, then run the
read-modify-write unit — under the Conflict Retry Driver when the request
verb from context is `"patch"`, once otherwise.  `forceAllowCreate` is
accepted for interface conformance and never read.  Every return path yields
`created = false`.  `world i` is the state the `i`-th attempt runs against;
the single-shot path runs against `world 0`. -/
def storeUpdate (s : StoreConfig) (h : UpdateHooks) (ctx : RequestContext) (name : String)
    (forceAllowCreate : Bool) (world : Nat → AttemptEnv) : UpdateResult :=
  match getClientResource s ctx with
  | Except.error e => ⟨none, false, some e⟩
  | Except.ok _ =>
    if ctx.verb = some "patch" then
      match retryOnConflict s.patchRetrySteps (fun i => doUpdate s h ctx name (world i)) with
      | Except.ok o => ⟨some o, false, none⟩
      | Except.error e => ⟨none, false, some e⟩
    else
      match doUpdate s h ctx name (world 0) with
      | Except.ok o => ⟨some o, false, none⟩
      | Except.error e => ⟨none, false, some e⟩

/-- An external signal a single Watch call can observe: the process-wide Stop
Signal closing (`s.stopWatchesCh`), or the caller's context ending
(`ctx.Done()`). -/
inductive WatchSignal where
  | stopClosed
  | ctxDone
  deriving DecidableEq, Repr

/-- The background wait started by `Store.Watch` (store.go 163-170): a select
over the Stop Signal and the caller's context, given the signals in the order
they fire.  It invokes `cancelFn` exactly when the Stop Signal fires first;
when the caller's context ends first it returns without cancelling; when
neither signal ever fires it stays blocked and never invokes `cancelFn`. -/
def watchGoroutineCancels : List WatchSignal → Bool
  | WatchSignal.stopClosed :: _ => true
  | WatchSignal.ctxDone :: _ => false
  | [] => false

/-- Whether the `cancelFn` of the derived watch context is ever invoked during
a Watch call whose signals fire in the given order: the body of `Store.Watch`
(store.go 146-173) never calls `cancelFn` on any of its own exit paths —
including the one where `delegate.Watch` fails immediately — so the only
invoker is the background wait. -/
def watchCancelReleased (signals : List WatchSignal) : Bool :=
  watchGoroutineCancels signals

/-- Whether the derived context (`watchCtx`, from `context.WithCancel(ctx)`)
is cancelled: either `cancelFn` ran, or the parent context ended (a derived
context is cancelled with its parent). -/
def derivedCtxCancelled (signals : List WatchSignal) : Bool :=
  watchGoroutineCancels signals || signals.contains WatchSignal.ctxDone

/-- The outcome of a call to one of the unimplemented verbs: a fatal stop
(`panic`) is distinct from both success and a recoverable error value. -/
inductive CallOutcome (α : Type) where
  | ok (a : α)
  | recoverable (e : Err)
  | fatal (msg : String)
  deriving DecidableEq, Repr

/-- `Store.Create` (store.go 224-227): unconditionally `panic("implement me")`. -/
def storeCreate (_s : StoreConfig) (_ctx : RequestContext) (_obj : RuntimeObject) :
    CallOutcome UnstructuredObj :=
  CallOutcome.fatal "implement me"

/-- `Store.Delete` (store.go 229-232): unconditionally `panic("implement me")`. -/
def storeDelete (_s : StoreConfig) (_ctx : RequestContext) (_name : String) :
    CallOutcome (UnstructuredObj × Bool) :=
  CallOutcome.fatal "implement me"

/-- `Store.DeleteCollection` (store.go 234-237): unconditionally
`panic("implement me")`. -/
def storeDeleteCollection (_s : StoreConfig) (_ctx : RequestContext)
    (_callerSelector : String) : CallOutcome UnstructuredObj :=
  CallOutcome.fatal "implement me"

/-- Fixture: a cluster-scoped adapter with Label Scope `{"env": "prod"}`
(the §8 example scenario). -/
def sEx : StoreConfig :=
  ⟨⟨"apps", "deployments"⟩, ⟨"apps", "v1", "deployments"⟩, false, [("env", "prod")], 5⟩

/-- Fixture: a concrete-tenant Get request context. -/
def ctxGet : RequestContext := ⟨some ⟨"root", false⟩, none, some "get"⟩

/-- Fixture: a concrete-tenant full-update request context. -/
def ctxUpd : RequestContext := ⟨some ⟨"root", false⟩, none, some "update"⟩

/-- Fixture: a concrete-tenant patch request context. -/
def ctxPatch : RequestContext := ⟨some ⟨"root", false⟩, none, some "patch"⟩

/-- Fixture: a wildcard-tenant Get request context. -/
def ctxWild : RequestContext := ⟨some ⟨"", true⟩, none, some "get"⟩

/-- Fixture: a wildcard-tenant full-update request context. -/
def ctxWildUpd : RequestContext := ⟨some ⟨"", true⟩, none, some "update"⟩

/-- Fixture: an object inside the `env=prod` scope. -/
def objX : UnstructuredObj := ⟨"x", "", [("env", "prod")], 1, "apps.Deployment"⟩

/-- Fixture: an object outside the `env=prod` scope. -/
def objY : UnstructuredObj := ⟨"y", "", [("env", "dev")], 1, "apps.Deployment"⟩

/-- Fixture: backing store holding `objX` and `objY` (the §8 example). -/
def bEx : BackingState := ⟨[("x", objX), ("y", objY)]⟩

/-- Fixture: update hooks whose transform returns the old object unchanged and
whose validations accept everything. -/
def hEx : UpdateHooks :=
  ⟨fun _ old => Except.ok (RuntimeObject.unstructured old),
   fun _ u _ => u, fun _ _ _ => [], fun _ _ _ => Except.ok ()⟩

/-- Fixture: a world whose backing writes always succeed. -/
def worldOk : Nat → AttemptEnv := fun _ => ⟨bEx, fun u => Except.ok u⟩

/-- Fixture: the adapter of the retry scenario, with a 3-attempt budget. -/
def sPatch : StoreConfig :=
  ⟨⟨"apps", "deployments"⟩, ⟨"apps", "v1", "deployments"⟩, false, [("env", "prod")], 3⟩

/-- Fixture: a version-conflict error from the backing store. -/
def conflictErr : Err := Err.conflict ⟨"apps", "deployments"⟩ "x"

/-- Fixture: the backing object as seen at attempt `n` of the retry scenario —
its resource version advances between attempts. -/
def objXv (n : Nat) : UnstructuredObj := ⟨"x", "", [("env", "prod")], n, "apps.Deployment"⟩

/-- Fixture: the §8 retry scenario — attempts 0 and 1 hit a write conflict,
attempt 2 succeeds, and every attempt reads a fresher backing state. -/
def worldC2 : Nat → AttemptEnv := fun i =>
  ⟨⟨[("x", objXv i)]⟩,
   if i < 2 then fun _ => Except.error conflictErr else fun u => Except.ok u⟩

/-- Fixture: a Label Scope requiring key `"team"` with the empty value. -/
def scopeEmptyVal : List (String × String) := [("team", "")]

/-- Fixture: an object carrying no `"team"` label at all. -/
def objNoTeam : UnstructuredObj := ⟨"z", "", [("env", "prod")], 1, "apps.Deployment"⟩

/-- Fixture: adapter whose scope is `scopeEmptyVal`. -/
def sC9 : StoreConfig :=
  ⟨⟨"apps", "deployments"⟩, ⟨"apps", "v1", "deployments"⟩, false, scopeEmptyVal, 5⟩

/-- Fixture: backing store holding `objNoTeam`. -/
def bC9 : BackingState := ⟨[("z", objNoTeam)]⟩

/-- Fixture: an object with no labels at all. -/
def objNoEnv : UnstructuredObj := ⟨"w", "", [], 1, "apps.Deployment"⟩

/-- Fixture: backing store holding `objNoEnv`. -/
def bC9w : BackingState := ⟨[("w", objNoEnv)]⟩

/-- Fixture: an adapter with an empty Label Scope. -/
def sNoScope : StoreConfig :=
  ⟨⟨"apps", "deployments"⟩, ⟨"apps", "v1", "deployments"⟩, false, [], 5⟩

/-- Fixture: a world whose backing writes always hit a version conflict. -/
def worldConflict : Nat → AttemptEnv := fun _ => ⟨bEx, fun _ => Except.error conflictErr⟩

theorem String.append_ne_empty_left {a b : String} (h : a ≠ "") : a ++ b ≠ "" := by
  intro hc
  apply h
  have hd := congrArg String.data hc
  simp only [String.data_append] at hd
  have ha : a.data = [] := (List.append_eq_nil.mp hd).1
  cases a with
  | mk d =>
    cases ha
    rfl

theorem key_eq_val_ne_empty (k v : String) : k ++ "=" ++ v ≠ "" := by
  intro hc
  have hd := congrArg String.data hc
  simp only [String.data_append] at hd
  have h2 : (['='] : List Char) = [] :=
    (List.append_eq_nil.mp ((List.append_eq_nil.mp hd).1)).2
  exact absurd h2 (by decide)

theorem toExpression_foldl_acc (l : List (String × String)) :
    ∀ acc : String, acc ≠ "" →
      l.foldl
        (fun expr kv => (if expr = "" then expr else expr ++ ",") ++ kv.1 ++ "=" ++ kv.2)
        acc
      = acc ++ clausesTail (l.map fun kv => kv.1 ++ "=" ++ kv.2) := by
  induction l with
  | nil => intro acc _; simp [clausesTail]
  | cons kv t ih =>
    intro acc hacc
    have hstep :
        (if acc = "" then acc else acc ++ ",") ++ kv.1 ++ "=" ++ kv.2
          = acc ++ ("," ++ (kv.1 ++ "=" ++ kv.2)) := by
      rw [if_neg hacc]
      simp [String.append_assoc]
    simp only [List.foldl_cons, List.map_cons, clausesTail]
    rw [hstep, ih _ (by
      apply String.append_ne_empty_left hacc)]
    simp [String.append_assoc]

theorem clausesJoin_cons (c : String) (cs : List String) :
    clausesJoin (c :: cs) = c ++ clausesTail cs := by
  cases cs with
  | nil => simp [clausesJoin, clausesTail]
  | cons c2 t =>
    induction t generalizing c c2 with
    | nil => simp [clausesJoin, clausesTail, String.append_assoc]
    | cons c3 t ih =>
      simp only [clausesJoin, clausesTail] at *
      rw [ih c2 c3]
      simp [String.append_assoc]

/-- The string built by `toExpression` is exactly the comma-join of the
`key=value` clause of every entry of the scope, in order. -/
theorem toExpression_eq_clausesJoin (l : List (String × String)) :
    toExpression l = clausesJoin (l.map fun kv => kv.1 ++ "=" ++ kv.2) := by
  cases l with
  | nil => rfl
  | cons kv t =>
    unfold toExpression
    rw [List.foldl_cons]
    have hacc : (if ("" : String) = "" then ("" : String) else "" ++ ",") ++ kv.1 ++ "=" ++ kv.2
        = kv.1 ++ "=" ++ kv.2 := by
      rw [if_pos rfl]
      simp
    rw [hacc, toExpression_foldl_acc t _ (key_eq_val_ne_empty kv.1 kv.2), List.map_cons,
      clausesJoin_cons]

theorem retryGo_okAt {f : Nat → Except Err UnstructuredObj} {i : Nat}
    {a : UnstructuredObj} (n : Nat) (hok : f i = Except.ok a) :
    retryOnConflictGo f n i = Except.ok a := by
  cases n <;> simp [retryOnConflictGo, hok]

theorem retryGo_nonconflictAt {f : Nat → Except Err UnstructuredObj} {i : Nat} {e : Err}
    (n : Nat) (herr : f i = Except.error e) (hnc : e.isConflict = false) :
    retryOnConflictGo f n i = Except.error e := by
  cases n <;> simp [retryOnConflictGo, herr, hnc]

theorem retryGo_conflict_succ {f : Nat → Except Err UnstructuredObj} {i : Nat} {e : Err}
    (n : Nat) (herr : f i = Except.error e) (hc : e.isConflict = true) :
    retryOnConflictGo f (n + 1) i = retryOnConflictGo f n (i + 1) := by
  simp [retryOnConflictGo, herr, hc]

theorem retryGo_conflict_zero {f : Nat → Except Err UnstructuredObj} {i : Nat} {e : Err}
    (herr : f i = Except.error e) (hc : e.isConflict = true) :
    retryOnConflictGo f 0 i = Except.error e := by
  simp [retryOnConflictGo, herr, hc]

/-- Exhaustion: when every attempt in the budget fails with a conflict, the
driver reports the conflict error of the final attempt. -/
theorem retryGo_all_conflict {f : Nat → Except Err UnstructuredObj} (es : Nat → Err) :
    ∀ (n i : Nat),
      (∀ j, j ≤ n → f (i + j) = Except.error (es (i + j)) ∧ (es (i + j)).isConflict = true) →
      retryOnConflictGo f n i = Except.error (es (i + n)) := by
  intro n
  induction n with
  | zero =>
    intro i hall
    have h0 := hall 0 (Nat.le_refl 0)
    simpa using retryGo_conflict_zero h0.1 h0.2
  | succ n ih =>
    intro i hall
    have h0 := hall 0 (Nat.zero_le _)
    rw [retryGo_conflict_succ n (by simpa using h0.1) (by simpa using h0.2)]
    have := ih (i + 1) (fun j hj => by
      have := hall (j + 1) (Nat.succ_le_succ hj)
      constructor
      · rw [show i + 1 + j = i + (j + 1) by omega]
        exact this.1
      · rw [show i + 1 + j = i + (j + 1) by omega]
        exact this.2)
    rw [this]
    rw [show i + 1 + n = i + (n + 1) by omega]

/-- A successful attempt after a prefix of conflicts is the reported result:
the driver answers with the value produced by that (latest) attempt. -/
theorem retryGo_success_after_conflicts {f : Nat → Except Err UnstructuredObj}
    {a : UnstructuredObj} :
    ∀ (k n i : Nat), k ≤ n →
      (∀ j, j < k → ∃ e, f (i + j) = Except.error e ∧ e.isConflict = true) →
      f (i + k) = Except.ok a →
      retryOnConflictGo f n i = Except.ok a := by
  intro k
  induction k with
  | zero =>
    intro n i _ _ hok
    exact retryGo_okAt n (by simpa using hok)
  | succ k ih =>
    intro n i hkn hconf hok
    obtain ⟨e, he, hec⟩ := hconf 0 (Nat.succ_pos _)
    obtain ⟨m, rfl⟩ : ∃ m, n = m + 1 := ⟨n - 1, by omega⟩
    rw [retryGo_conflict_succ m (by simpa using he) hec]
    exact ih m (i + 1) (by omega)
      (fun j hj => by
        obtain ⟨e', he', hec'⟩ := hconf (j + 1) (Nat.succ_lt_succ hj)
        exact ⟨e', by rw [show i + 1 + j = i + (j + 1) by omega]; exact he', hec'⟩)
      (by rw [show i + 1 + k = i + (k + 1) by omega]; exact hok)

/-- A non-conflict failure after a prefix of conflicts is reported
immediately, with no further attempt. -/
theorem retryGo_nonconflict_after_conflicts {f : Nat → Except Err UnstructuredObj} {e : Err} :
    ∀ (k n i : Nat), k ≤ n →
      (∀ j, j < k → ∃ e', f (i + j) = Except.error e' ∧ e'.isConflict = true) →
      f (i + k) = Except.error e → e.isConflict = false →
      retryOnConflictGo f n i = Except.error e := by
  intro k
  induction k with
  | zero =>
    intro n i _ _ herr hnc
    exact retryGo_nonconflictAt n (by simpa using herr) hnc
  | succ k ih =>
    intro n i hkn hconf herr hnc
    obtain ⟨e', he', hec'⟩ := hconf 0 (Nat.succ_pos _)
    obtain ⟨m, rfl⟩ : ∃ m, n = m + 1 := ⟨n - 1, by omega⟩
    rw [retryGo_conflict_succ m (by simpa using he') hec']
    exact ih m (i + 1) (by omega)
      (fun j hj => by
        obtain ⟨e2, he2, hec2⟩ := hconf (j + 1) (Nat.succ_lt_succ hj)
        exact ⟨e2, by rw [show i + 1 + j = i + (j + 1) by omega]; exact he2, hec2⟩)
      (by rw [show i + 1 + k = i + (k + 1) by omega]; exact herr) hnc

/-- C1: a Get whose backing object exists but fails the fixed Label Scope
fails with the not-found error carrying the configured group/resource
identity and the requested name — the very same error `Store.Get` yields when
the name is absent from the backing store altogether — and never returns the
object. -/
theorem get_scope_mismatch_is_notFound (s : StoreConfig) (b : BackingState)
    (ctx : RequestContext) (name : String) (obj : UnstructuredObj)
    (hres : ∃ hdl, getClientResource s ctx = Except.ok hdl)
    (hfound : lookupObj b name = some obj)
    (hmiss : matchesObj s.labelSelector obj = false) :
    storeGet s b ctx name = Except.error (Err.notFound s.defaultQualifiedResource name) ∧
    ∀ b2 : BackingState, lookupObj b2 name = none →
      storeGet s b2 ctx name = storeGet s b ctx name := by
  obtain ⟨hdl, hres⟩ := hres
  constructor
  · simp [storeGet, hres, delegateGet, hfound, hmiss]
  · intro b2 hb2
    simp [storeGet, hres, delegateGet, hfound, hb2, hmiss]

theorem get_scope_mismatch_is_notFound_witness :
    storeGet sEx bEx ctxGet "y"
      = Except.error (Err.notFound ⟨"apps", "deployments"⟩ "y") ∧
    storeGet sEx ⟨[]⟩ ctxGet "y" = storeGet sEx bEx ctxGet "y" := by
  have h := get_scope_mismatch_is_notFound sEx bEx ctxGet "y" objY
    ⟨⟨"root", sEx.resource, none⟩, rfl⟩ rfl rfl
  exact ⟨h.1, h.2 ⟨[]⟩ rfl⟩

/-- C9 counterexample: the claim fails as stated — with a Label Scope
requiring key `"team"` with the empty value, an object that carries no
`"team"` label at all still matches (`matches` reads the Go map zero value
`""`), and the Get path returns the object instead of not-found. -/
theorem matches_missing_key_counterexample :
    hasLabelKey objNoTeam.labels "team" = false ∧
    ("team", "") ∈ scopeEmptyVal ∧
    matchesObj scopeEmptyVal objNoTeam = true ∧
    storeGet sC9 bC9 ctxGet "z" = Except.ok objNoTeam := by
  refine ⟨rfl, ?_, rfl, rfl⟩
  simp [scopeEmptyVal]

/-- C9 (amended): an object missing a key that the Label Scope requires with a
non-empty value is non-matching, and the single-object Get path therefore
reports it not found. -/
theorem matches_missing_key_notFound (s : StoreConfig) (b : BackingState)
    (ctx : RequestContext) (name : String) (obj : UnstructuredObj) (k v : String)
    (hkv : (k, v) ∈ s.labelSelector) (hv : v ≠ "")
    (hmiss : hasLabelKey obj.labels k = false)
    (hres : ∃ hdl, getClientResource s ctx = Except.ok hdl)
    (hfound : lookupObj b name = some obj) :
    matchesObj s.labelSelector obj = false ∧
    storeGet s b ctx name = Except.error (Err.notFound s.defaultQualifiedResource name) := by
  have hlook : lookupLabel obj.labels k = "" := by
    unfold lookupLabel
    unfold hasLabelKey at hmiss
    cases hfind : obj.labels.find? (fun kv => kv.1 == k) with
    | none => rfl
    | some kv =>
      rw [hfind] at hmiss
      simp at hmiss
  have hmm : matchesObj s.labelSelector obj = false := by
    rw [Bool.eq_false_iff]
    intro hall
    unfold matchesObj at hall
    rw [List.all_eq_true] at hall
    have hb := hall (k, v) hkv
    rw [hlook] at hb
    exact hv (eq_of_beq hb).symm
  obtain ⟨hdl, hres⟩ := hres
  exact ⟨hmm, by simp [storeGet, hres, delegateGet, hfound, hmm]⟩

theorem matches_missing_key_notFound_witness :
    matchesObj sEx.labelSelector objNoEnv = false ∧
    storeGet sEx bC9w ctxGet "w"
      = Except.error (Err.notFound ⟨"apps", "deployments"⟩ "w") := by
  exact matches_missing_key_notFound sEx bC9w ctxGet "w" objNoEnv "env" "prod"
    (by simp [sEx]) (by decide) rfl ⟨⟨"root", sEx.resource, none⟩, rfl⟩ rfl

/-- C3: every List/Watch hands the backing client the selector combining the
caller's selector with the comma-joined `key=value` clause of every Label
Scope entry; with an empty caller selector the forwarded string is exactly
the comma-join of the scope clauses. -/
theorem list_watch_selector_pushdown (s : StoreConfig) (ctx : RequestContext)
    (callerSel : String) (hdl : ResourceHandle)
    (hres : getClientResource s ctx = Except.ok hdl) :
    storeList s ctx callerSel
      = Except.ok (hdl, combinedSelector callerSel s.labelSelector) ∧
    storeWatchCall s ctx callerSel
      = Except.ok (hdl, combinedSelector callerSel s.labelSelector) ∧
    (callerSel = "" → combinedSelector callerSel s.labelSelector
      = clausesJoin (s.labelSelector.map fun kv => kv.1 ++ "=" ++ kv.2)) ∧
    (callerSel ≠ "" → combinedSelector callerSel s.labelSelector
      = callerSel ++ "," ++ clausesJoin (s.labelSelector.map fun kv => kv.1 ++ "=" ++ kv.2)) ∧
    (∀ kv, kv ∈ s.labelSelector →
      kv.1 ++ "=" ++ kv.2 ∈ s.labelSelector.map fun kv2 => kv2.1 ++ "=" ++ kv2.2) := by
  refine ⟨by simp [storeList, hres], by simp [storeWatchCall, hres], ?_, ?_, ?_⟩
  · intro hc
    simp [combinedSelector, hc, toExpression_eq_clausesJoin]
  · intro hc
    simp [combinedSelector, hc, toExpression_eq_clausesJoin]
  · intro kv hkv
    exact List.mem_map_of_mem _ hkv

theorem list_watch_selector_pushdown_witness :
    storeList sEx ctxGet "a=b"
      = Except.ok (⟨"root", ⟨"apps", "v1", "deployments"⟩, none⟩, "a=b,env=prod") ∧
    storeWatchCall sEx ctxGet ""
      = Except.ok (⟨"root", ⟨"apps", "v1", "deployments"⟩, none⟩, "env=prod") := by
  have h1 := list_watch_selector_pushdown sEx ctxGet "a=b" ⟨"root", sEx.resource, none⟩ rfl
  have h2 := list_watch_selector_pushdown sEx ctxGet "" ⟨"root", sEx.resource, none⟩ rfl
  exact ⟨h1.1.trans (by rfl), h2.2.1.trans (by rfl)⟩

/-- C10: with an empty Label Scope, List and Watch forward a non-empty caller
selector with a spurious trailing comma appended — never verbatim — and
forward the empty string when the caller selector is empty. -/
theorem empty_scope_trailing_comma (s : StoreConfig) (ctx : RequestContext)
    (callerSel : String) (hdl : ResourceHandle)
    (hres : getClientResource s ctx = Except.ok hdl)
    (hscope : s.labelSelector = []) :
    (callerSel ≠ "" →
      storeList s ctx callerSel = Except.ok (hdl, callerSel ++ ",") ∧
      storeWatchCall s ctx callerSel = Except.ok (hdl, callerSel ++ ",") ∧
      callerSel ++ "," ≠ callerSel) ∧
    (callerSel = "" →
      storeList s ctx callerSel = Except.ok (hdl, "") ∧
      storeWatchCall s ctx callerSel = Except.ok (hdl, "")) := by
  constructor
  · intro hc
    have hcomb : combinedSelector callerSel s.labelSelector = callerSel ++ "," := by
      simp [combinedSelector, hc, hscope, toExpression]
    refine ⟨by simp [storeList, hres, hcomb], by simp [storeWatchCall, hres, hcomb], ?_⟩
    intro heq
    have hlen := congrArg String.length heq
    rw [String.length_append, show (",".length) = 1 from rfl] at hlen
    omega
  · intro hc
    have hcomb : combinedSelector callerSel s.labelSelector = "" := by
      simp [combinedSelector, hc, hscope, toExpression]
    exact ⟨by simp [storeList, hres, hcomb], by simp [storeWatchCall, hres, hcomb]⟩

theorem empty_scope_trailing_comma_witness :
    storeList sNoScope ctxGet "a=b"
      = Except.ok (⟨"root", ⟨"apps", "v1", "deployments"⟩, none⟩, "a=b,") ∧
    storeList sNoScope ctxGet ""
      = Except.ok (⟨"root", ⟨"apps", "v1", "deployments"⟩, none⟩, "") := by
  have h1 := empty_scope_trailing_comma sNoScope ctxGet "a=b"
    ⟨"root", sNoScope.resource, none⟩ rfl rfl
  have h2 := empty_scope_trailing_comma sNoScope ctxGet ""
    ⟨"root", sNoScope.resource, none⟩ rfl rfl
  exact ⟨(h1.1 (by decide)).1.trans (by rfl), (h2.2 rfl).1⟩

/-- C2: with verb `"patch"`, Update runs the whole read-modify-write unit
under the Conflict Retry Driver: a non-conflict failure (after any prefix of
conflicting attempts) is reported immediately with no further attempt; when
every attempt in the budget conflicts, the last conflict error is reported;
and a success after a prefix of conflicts reports the object produced by that
latest attempt, computed from that attempt's own (fresh) backing state
`world k` — never from an earlier attempt's read. -/
theorem update_patch_retry (s : StoreConfig) (h : UpdateHooks) (ctx : RequestContext)
    (name : String) (fac : Bool) (world : Nat → AttemptEnv) (hdl : ResourceHandle)
    (hres : getClientResource s ctx = Except.ok hdl)
    (hverb : ctx.verb = some "patch") :
    (∀ k e, k ≤ s.patchRetrySteps - 1 →
      (∀ j, j < k → ∃ e2, doUpdate s h ctx name (world j) = Except.error e2 ∧
        e2.isConflict = true) →
      doUpdate s h ctx name (world k) = Except.error e → e.isConflict = false →
      storeUpdate s h ctx name fac world = ⟨none, false, some e⟩) ∧
    (∀ es : Nat → Err,
      (∀ j, j ≤ s.patchRetrySteps - 1 →
        doUpdate s h ctx name (world j) = Except.error (es j) ∧ (es j).isConflict = true) →
      storeUpdate s h ctx name fac world
        = ⟨none, false, some (es (s.patchRetrySteps - 1))⟩) ∧
    (∀ k a, k ≤ s.patchRetrySteps - 1 →
      (∀ j, j < k → ∃ e2, doUpdate s h ctx name (world j) = Except.error e2 ∧
        e2.isConflict = true) →
      doUpdate s h ctx name (world k) = Except.ok a →
      storeUpdate s h ctx name fac world = ⟨some a, false, none⟩) := by
  refine ⟨?_, ?_, ?_⟩
  · intro k e hk hconf herr hnc
    have hgo := retryGo_nonconflict_after_conflicts
      (f := fun i => doUpdate s h ctx name (world i))
      k (s.patchRetrySteps - 1) 0 hk
      (fun j hj => by simpa using hconf j hj) (by simpa using herr) hnc
    simp [storeUpdate, hres, hverb, retryOnConflict, hgo]
  · intro es hall
    have hgo := retryGo_all_conflict
      (f := fun i => doUpdate s h ctx name (world i))
      es (s.patchRetrySteps - 1) 0
      (fun j hj => by simpa using hall j hj)
    simp only [Nat.zero_add] at hgo
    simp [storeUpdate, hres, hverb, retryOnConflict, hgo]
  · intro k a hk hconf hok
    have hgo := retryGo_success_after_conflicts
      (f := fun i => doUpdate s h ctx name (world i))
      k (s.patchRetrySteps - 1) 0 hk
      (fun j hj => by simpa using hconf j hj) (by simpa using hok)
    simp [storeUpdate, hres, hverb, retryOnConflict, hgo]

theorem update_patch_retry_witness :
    storeUpdate sPatch hEx ctxPatch "x" false worldC2 = ⟨some (objXv 2), false, none⟩ := by
  have h := update_patch_retry sPatch hEx ctxPatch "x" false worldC2
    ⟨"root", sPatch.resource, none⟩ rfl rfl
  refine h.2.2 2 (objXv 2) (by decide) ?_ rfl
  intro j hj
  interval_cases j
  · exact ⟨conflictErr, rfl, rfl⟩
  · exact ⟨conflictErr, rfl, rfl⟩

/-- C4: with any request verb other than `"patch"` (including absent request
info), Update executes the read-modify-write unit exactly once — its outcome
depends only on the attempt-0 world — and any failure of that single attempt,
a version conflict included, is returned to the caller as-is with zero
retries. -/
theorem update_nonpatch_no_retry (s : StoreConfig) (h : UpdateHooks) (ctx : RequestContext)
    (name : String) (fac : Bool) (world : Nat → AttemptEnv) (hdl : ResourceHandle)
    (hres : getClientResource s ctx = Except.ok hdl)
    (hverb : ctx.verb ≠ some "patch") :
    (∀ e, doUpdate s h ctx name (world 0) = Except.error e →
      storeUpdate s h ctx name fac world = ⟨none, false, some e⟩) ∧
    (∀ a, doUpdate s h ctx name (world 0) = Except.ok a →
      storeUpdate s h ctx name fac world = ⟨some a, false, none⟩) ∧
    (∀ world2 : Nat → AttemptEnv, world2 0 = world 0 →
      storeUpdate s h ctx name fac world2 = storeUpdate s h ctx name fac world) := by
  refine ⟨?_, ?_, ?_⟩
  · intro e he
    simp [storeUpdate, hres, hverb, he]
  · intro a ha
    simp [storeUpdate, hres, hverb, ha]
  · intro world2 hw
    simp [storeUpdate, hres, hverb, hw]

theorem update_nonpatch_no_retry_witness :
    storeUpdate sEx hEx ctxUpd "x" false worldConflict = ⟨none, false, some conflictErr⟩ := by
  have h := update_nonpatch_no_retry sEx hEx ctxUpd "x" false worldConflict
    ⟨"root", sEx.resource, none⟩ rfl (by decide)
  exact h.1 conflictErr rfl

/-- C8: Update's observable result is independent of the `forceAllowCreate`
argument, the `created` component is `false` on every return path, and a name
absent from the backing store is answered with not-found — never an upsert —
on the patch path and the non-patch path alike. -/
theorem update_ignores_forceAllowCreate (s : StoreConfig) (h : UpdateHooks)
    (ctx : RequestContext) (name : String) (world : Nat → AttemptEnv) :
    (∀ f1 f2 : Bool, storeUpdate s h ctx name f1 world = storeUpdate s h ctx name f2 world) ∧
    (∀ fac : Bool, (storeUpdate s h ctx name fac world).created = false) ∧
    (∀ fac : Bool, ∀ hdl, getClientResource s ctx = Except.ok hdl →
      lookupObj (world 0).backing name = none →
      storeUpdate s h ctx name fac world
        = ⟨none, false, some (Err.notFound s.defaultQualifiedResource name)⟩) := by
  refine ⟨fun f1 f2 => rfl, ?_, ?_⟩
  · intro fac
    cases hg : getClientResource s ctx with
    | error e => simp [storeUpdate, hg]
    | ok hdl =>
      by_cases hv : ctx.verb = some "patch"
      · cases hr : retryOnConflict s.patchRetrySteps (fun i => doUpdate s h ctx name (world i))
          with
        | ok o => simp [storeUpdate, hg, hv, hr]
        | error e => simp [storeUpdate, hg, hv, hr]
      · cases hd : doUpdate s h ctx name (world 0) with
        | ok o => simp [storeUpdate, hg, hv, hd]
        | error e => simp [storeUpdate, hg, hv, hd]
  · intro fac hdl hres hnone
    have hdo : doUpdate s h ctx name (world 0)
        = Except.error (Err.notFound s.defaultQualifiedResource name) := by
      simp [doUpdate, storeGet, hres, delegateGet, hnone]
    by_cases hv : ctx.verb = some "patch"
    · have hgo := retryGo_nonconflictAt
        (f := fun i => doUpdate s h ctx name (world i)) (i := 0)
        (s.patchRetrySteps - 1) hdo rfl
      simp [storeUpdate, hres, hv, retryOnConflict, hgo]
    · simp [storeUpdate, hres, hv, hdo]

theorem update_ignores_forceAllowCreate_witness :
    storeUpdate sEx hEx ctxUpd "nope" true worldOk
      = storeUpdate sEx hEx ctxUpd "nope" false worldOk ∧
    storeUpdate sEx hEx ctxUpd "nope" false worldOk
      = ⟨none, false, some (Err.notFound ⟨"apps", "deployments"⟩ "nope")⟩ := by
  have h := update_ignores_forceAllowCreate sEx hEx ctxUpd "nope" worldOk
  exact ⟨h.1 true false, h.2.2 false ⟨"root", sEx.resource, none⟩ rfl rfl⟩

/-- C7 counterexample: the claim's "single-object Get and Update always
require a concrete (non-wildcard) tenant identity" fails on the code — with
the wildcard tenant identity in context, `getClientResource` resolves to the
all-tenants endpoint and single-object Get and Update proceed normally. -/
theorem wildcard_get_update_counterexample :
    getClientResource sEx ctxWild
      = Except.ok ⟨logicalclusterWildcard, ⟨"apps", "v1", "deployments"⟩, none⟩ ∧
    storeGet sEx bEx ctxWild "x" = Except.ok objX ∧
    storeUpdate sEx hEx ctxWildUpd "x" false worldOk = ⟨some objX, false, none⟩ :=
  ⟨rfl, rfl, rfl⟩

/-- C7 (amended): the wildcard tenant identity in context is mapped to the
distinguished all-tenants value of the backing client, uniformly for every
operation — the adapter performs no verb-dependent restriction, so
single-object Get on a wildcard context also resolves to the all-tenants
endpoint and succeeds, rather than being rejected; requiring a concrete
tenant for Get/Update is left to the surrounding system. -/
theorem wildcard_maps_to_all_tenants (s : StoreConfig) (ctx : RequestContext) (c : Cluster)
    (hc : ctx.cluster = some c) (hw : c.wildcard = true)
    (hns : s.namespaceScoped = true → ∃ n, ctx.ns = some n) :
    ∃ hdl, getClientResource s ctx = Except.ok hdl ∧
      hdl.clusterName = logicalclusterWildcard ∧
      (∀ b name obj, lookupObj b name = some obj →
        matchesObj s.labelSelector obj = true →
        storeGet s b ctx name = Except.ok obj) := by
  cases hsc : s.namespaceScoped with
  | true =>
    obtain ⟨n, hn⟩ := hns hsc
    refine ⟨⟨logicalclusterWildcard, s.resource, some n⟩, ?_, rfl, ?_⟩
    · simp [getClientResource, validClusterFrom, hc, hw, hsc, hn]
    · intro b name obj hb hm
      simp [storeGet, getClientResource, validClusterFrom, hc, hw, hsc, hn, delegateGet,
        hb, hm]
  | false =>
    refine ⟨⟨logicalclusterWildcard, s.resource, none⟩, ?_, rfl, ?_⟩
    · simp [getClientResource, validClusterFrom, hc, hw, hsc]
    · intro b name obj hb hm
      simp [storeGet, getClientResource, validClusterFrom, hc, hw, hsc, delegateGet, hb, hm]

theorem wildcard_maps_to_all_tenants_witness :
    ∃ hdl, getClientResource sEx ctxWild = Except.ok hdl ∧
      hdl.clusterName = logicalclusterWildcard ∧
      (∀ b name obj, lookupObj b name = some obj →
        matchesObj sEx.labelSelector obj = true →
        storeGet sEx b ctxWild name = Except.ok obj) :=
  wildcard_maps_to_all_tenants sEx ctxWild ⟨"", true⟩ rfl rfl
    (fun h2 => absurd h2 (by decide))

/-- C5: evaluation at the failing scenario — when `delegate.Watch` fails
immediately and neither the Stop Signal nor the caller's context ever fires,
the `cancelFn` of the derived watch context is never invoked: the body of
`Store.Watch` has no `cancelFn` call on any of its own exit paths, and the
background wait cancels only when the Stop Signal fires first.  The
termination half of the claim does hold: either signal firing cancels the
derived context. -/
theorem watch_cancel_not_released_on_immediate_failure :
    watchCancelReleased [] = false ∧
    derivedCtxCancelled [] = false ∧
    watchGoroutineCancels [WatchSignal.ctxDone] = false ∧
    watchCancelReleased [WatchSignal.stopClosed] = true ∧
    derivedCtxCancelled [WatchSignal.stopClosed] = true ∧
    derivedCtxCancelled [WatchSignal.ctxDone] = true := by
  decide

/-- C6: Create, Delete and DeleteCollection are a fatal stop on every input:
each evaluates to the `panic` outcome `fatal "implement me"`, a constructor
distinct from both a successful result and a recoverable error value, so the
calls neither silently no-op nor yield a recoverable error. -/
theorem unimplemented_verbs_fatal :
    (∀ s ctx obj, storeCreate s ctx obj = CallOutcome.fatal "implement me") ∧
    (∀ s ctx name, storeDelete s ctx name = CallOutcome.fatal "implement me") ∧
    (∀ s ctx sel, storeDeleteCollection s ctx sel = CallOutcome.fatal "implement me") :=
  ⟨fun _ _ _ => rfl, fun _ _ _ => rfl, fun _ _ _ => rfl⟩

end ForwardingRegistry
